import Mathlib

/-!
# ble-client: the telemetry pipeline of `main.go`

A shallow embedding of the gateway's `main.go`:

* the fixed-layout decoding of the manufacturer payload into `HumiTempData`
  (`binary.Read` with `binary.LittleEndian`),
* `byteAddressToString`,
* the event builders `ExtractTemp` / `ExtractHumidity`,
* the advertisement callback `advHandler`,
* the credential bootstrap of `main`.

Bytes are natural numbers below 256, byte slices are lists of them.  A Go
slice that may be `nil` is an `Option (List _)`, `none` being `nil`.  Go's
`float64` is modelled by its finite values, a sign, a mantissa and a binary
exponent, with every arithmetic operation rounded to nearest, ties to even.
Effects (log lines, HTTP exchanges, file accesses, process exit) are recorded
in an explicit trace; what the outside world answers is a parameter.  The HTTP
client may hand back no response at all, and then `PostEvent` and
`DoRegistration` panic on `resp.StatusCode()`: the handler does not return, and
`main` ends with exit status 2.
-/

namespace BleClient

/-! ## Bytes and the sensor record -/

/-- A byte slice: every element stands for a `uint8`. -/
abbrev Bytes := List Nat

/-- The record `HumiTempData` of `main.go`: seven `uint8` fields followed by a
`[6]byte` address. -/
structure HumiTempData where
  TemperatureSign : Nat
  TemperatureWhole : Nat
  TemperatureFraction : Nat
  HumiditySign : Nat
  HumidityWhole : Nat
  HumidityFraction : Nat
  UpdateRate : Nat
  Address : Bytes
deriving DecidableEq, Repr

/-- The two errors `io.ReadFull` can report on an in-memory reader. -/
inductive ReadError where
  | EOF
  | ErrUnexpectedEOF
deriving DecidableEq, Repr

/-- Number of bytes `binary.Read` asks for when the target is a `HumiTempData`:
one per `uint8` field plus the six of the address array. -/
def humiTempDataSize : Nat := 7 + 6

/-- `io.ReadFull` on a `bytes.Reader` over `r`, asking for `n > 0` bytes:
`io.EOF` when nothing can be read, `io.ErrUnexpectedEOF` when fewer than `n`
bytes are there, the first `n` bytes otherwise. -/
def readFull (r : Bytes) (n : Nat) : Except ReadError Bytes :=
  if r.length = 0 then .error .EOF
  else if r.length < n then .error .ErrUnexpectedEOF
  else .ok (r.take n)

/-- The field-by-field decoding `binary.Read` performs on the filled buffer:
the scalar fields in declaration order, then the address array. Every field is
one byte wide, so the byte order plays no part. -/
def decodeFields (buf : Bytes) : HumiTempData :=
  { TemperatureSign := buf.getD 0 0
    TemperatureWhole := buf.getD 1 0
    TemperatureFraction := buf.getD 2 0
    HumiditySign := buf.getD 3 0
    HumidityWhole := buf.getD 4 0
    HumidityFraction := buf.getD 5 0
    UpdateRate := buf.getD 6 0
    Address := (buf.drop 7).take 6 }

/-- The call `binary.Read(bytes.NewReader(data), binary.LittleEndian, &hTD)`. -/
def binaryRead (data : Bytes) : Except ReadError HumiTempData :=
  match readFull data humiTempDataSize with
  | .error e => .error e
  | .ok buf => .ok (decodeFields buf)

/-- The encoding `binary.Write` produces for a `HumiTempData` with the same
layout: the seven scalar bytes in declaration order, then the address. -/
def binaryWrite (h : HumiTempData) : Bytes :=
  [h.TemperatureSign, h.TemperatureWhole, h.TemperatureFraction,
   h.HumiditySign, h.HumidityWhole, h.HumidityFraction, h.UpdateRate] ++ h.Address

/-! ## Rendering the address -/

/-- The digit characters of the `%X` verb. -/
def hexDigitUpper (d : Nat) : Char :=
  "0123456789ABCDEF".toList.getD d '0'

/-- The verb `%X` applied to a byte: upper-case hexadecimal without any
padding, so one digit below 16 and two digits from 16 on. -/
def fmtX (b : Nat) : String :=
  if b < 16 then String.mk [hexDigitUpper b]
  else String.mk [hexDigitUpper (b / 16), hexDigitUpper (b % 16)]

/-- The function `byteAddressToString` of `main.go`. -/
def byteAddressToString (b : Bytes) : String :=
  match b with
  | [b0, b1, b2, b3, b4, b5] =>
    fmtX b0 ++ ":" ++ fmtX b1 ++ ":" ++ fmtX b2 ++ ":" ++ fmtX b3 ++ ":" ++ fmtX b4 ++ ":" ++ fmtX b5
  | _ => "bad size"

/-! ## float64 arithmetic

`SensorValue` is a Go `float64`.  Only finite values occur in this program, so
a value is a sign, a natural mantissa and a binary exponent, standing for
`± mant * 2 ^ exp`.  Each operation computes the exact result as a ratio of
naturals and rounds it to 53 significant bits, to nearest with ties to even
(exponent floor `-1074` for subnormals).  Overflow to infinity is not modelled:
every quantity here is below `2 ^ 9`. -/

/-- A finite `float64`: the number `± mant * 2 ^ exp`. -/
structure F64 where
  neg : Bool
  mant : Nat
  exp : Int
deriving DecidableEq, Repr

/-- The rational number a finite `float64` stands for. -/
def F64.toRat (x : F64) : ℚ :=
  (if x.neg then -1 else 1) * (x.mant : ℚ) * (2 : ℚ) ^ x.exp

/-- Number of binary digits of `n`, by halving; `fuel` bounds the number of
halvings and `n` itself is always enough. -/
def bitLength : Nat → Nat → Nat
  | 0, _ => 0
  | fuel + 1, n => if n = 0 then 0 else bitLength fuel (n / 2) + 1

/-- For positive `n` and `d`, the exponent `e` with `2 ^ e ≤ n / d < 2 ^ (e + 1)`. -/
def floorLog2 (n d : Nat) : Int :=
  let t : Int := (bitLength n n : Int) - (bitLength d d : Int)
  if d * 2 ^ t.toNat ≤ n * 2 ^ (-t).toNat then t else t - 1

/-- The integer nearest to `n / d`, the even one when two are equally near. -/
def roundHalfEven (n d : Nat) : Nat :=
  let q := n / d
  let r := n % d
  if 2 * r < d then q else if d < 2 * r then q + 1 else if q % 2 = 0 then q else q + 1

/-- Rounding of the exact value `± n / d` to `float64`: the unit in the last
place is `2 ^ s` with `s = max (e - 52) (-1074)`, and the mantissa is the
nearest multiple count, ties to even. -/
def F64.round (neg : Bool) (n d : Nat) : F64 :=
  if n = 0 then ⟨neg, 0, 0⟩
  else
    let s : Int := max (floorLog2 n d - 52) (-1074)
    ⟨neg, roundHalfEven (n * 2 ^ (-s).toNat) (d * 2 ^ s.toNat), s⟩

/-- The conversion `float64(b)` of a `uint8`: exact. -/
def F64.ofUInt8 (b : Nat) : F64 := ⟨false, b, 0⟩

/-- The `float64` quotient `x / y` for a nonzero divisor. -/
def F64.div (x y : F64) : F64 :=
  let k := x.exp - y.exp
  F64.round (x.neg != y.neg) (x.mant * 2 ^ k.toNat) (y.mant * 2 ^ (-k).toNat)

/-- The integer `± mant * 2 ^ (exp - e)`, for an exponent `e ≤ exp`. -/
def F64.signed (x : F64) (e : Int) : Int :=
  let a : Int := ((x.mant * 2 ^ (x.exp - e).toNat : Nat) : Int)
  if x.neg then -a else a

/-- The `float64` sum `x + y`. -/
def F64.add (x y : F64) : F64 :=
  let e := min x.exp y.exp
  let s := x.signed e + y.signed e
  F64.round (decide (s < 0)) (s.natAbs * 2 ^ e.toNat) (2 ^ (-e).toNat)

/-- The `float64` product `x * y`. -/
def F64.mul (x y : F64) : F64 :=
  let e := x.exp + y.exp
  F64.round (x.neg != y.neg) (x.mant * y.mant * 2 ^ e.toNat) (2 ^ (-e).toNat)

/-- The constant `10.0`. -/
def F64.ten : F64 := ⟨false, 10, 0⟩

/-- The constant `-1.`. -/
def F64.minusOne : F64 := ⟨true, 1, 0⟩

/-! ## Advertisements and events -/

/-- An instant, as `time.Now().UTC()` reports it. -/
structure Time where
  unixNano : Int
deriving DecidableEq, Repr

/-- A Go `error` value. -/
inductive GoError where
  | io (e : ReadError)
  | deadlineExceeded
  | canceled
  | other (msg : String)
deriving DecidableEq, Repr

/-- A `ble.UUID`, a byte slice that may be `nil`. -/
abbrev UUID := Option Bytes

/-- What `advHandler` reads from a `ble.Advertisement`. -/
structure Advertisement where
  LocalName : String
  ManufacturerData : Bytes
  Services : Option (List UUID)
  RSSI : Int
deriving DecidableEq, Repr

/-- The type `BleDevicePattern`. -/
structure BleDevicePattern where
  Name : String
  Svcs : Option (List UUID)
deriving DecidableEq, Repr

/-- The package variable `pattern`. -/
def pattern : BleDevicePattern :=
  { Name := "HumiTemp Sensor Tag"
    Svcs := some [some [0x20, 0xaa]] }

/-- The package variable `temperatureUnit`. -/
def temperatureUnit : String := "C"

/-- The type `BleData`, the event sent to the ingestion endpoint. -/
structure BleData where
  Address : String
  Rssi : Int
  ID : String
  NodeID : String
  Timestamp : Time
  SensorValue : F64
  Units : String
deriving DecidableEq, Repr

/-- The call `reflect.DeepEqual` on two `ble.UUID`: both `nil` or both not, and
then the same bytes. -/
def deepEqualUUID : UUID → UUID → Bool
  | none, none => true
  | some a, some b => a == b
  | _, _ => false

/-- Element-wise comparison of two lists of `ble.UUID`. -/
def deepEqualElems : List UUID → List UUID → Bool
  | [], [] => true
  | u :: us, v :: vs => deepEqualUUID u v && deepEqualElems us vs
  | _, _ => false

/-- The call `reflect.DeepEqual` on two `[]ble.UUID`: both `nil` or both not,
the same length, and deeply equal elements. -/
def deepEqualSvcs : Option (List UUID) → Option (List UUID) → Bool
  | none, none => true
  | some a, some b => a.length == b.length && deepEqualElems a b
  | _, _ => false

/-- The `BleData` literal of `ExtractTemp`, with the sign applied. -/
def tempBleData (a : Advertisement) (now : Time) (hTD : HumiTempData) : BleData :=
  let bleData : BleData :=
    { Address := ""
      Rssi := a.RSSI
      Timestamp := now
      ID := "Temperature"
      NodeID := byteAddressToString hTD.Address
      SensorValue :=
        F64.add (F64.ofUInt8 hTD.TemperatureWhole)
          (F64.div (F64.ofUInt8 hTD.TemperatureFraction) F64.ten)
      Units := String.singleton (temperatureUnit.get 0) }
  if hTD.TemperatureSign ≠ 0 then
    { bleData with SensorValue := F64.mul bleData.SensorValue F64.minusOne }
  else bleData

/-- The `BleData` literal of `ExtractHumidity`, with the sign applied. -/
def humidityBleData (a : Advertisement) (now : Time) (hTD : HumiTempData) : BleData :=
  let bleData : BleData :=
    { Address := ""
      Rssi := a.RSSI
      Timestamp := now
      ID := "Humidity"
      NodeID := byteAddressToString hTD.Address
      SensorValue :=
        F64.add (F64.ofUInt8 hTD.HumidityWhole)
          (F64.div (F64.ofUInt8 hTD.HumidityFraction) F64.ten)
      Units := "% RH" }
  if hTD.HumiditySign ≠ 0 then
    { bleData with SensorValue := F64.mul bleData.SensorValue F64.minusOne }
  else bleData

/-- What the process does to the outside world, in the order it happens. -/
inductive Effect where
  | logText (msg : String)
  | logError (context : String) (e : GoError)
  | logMsg (payload : Bytes) (statusCode : Int)
  | logStatus (context : String) (statusCode : Int)
  | print (address apiKey : String)
  | readConfig (fileName : String)
  | readJwt (fileName : String)
  | register (url apiKey : String)
  | writeJwt (fileName jwt : String)
  | setupDevice
  | scan (address jwt : String)
  | postEvent (url jwt : String) (payload : Bytes)
  | panic (msg : String)
deriving DecidableEq, Repr

/-- Result of `ExtractTemp` and `ExtractHumidity`: the log lines written, then
the returned payload and error. -/
structure Extracted where
  logs : List Effect
  payload : Bytes
  err : Option GoError
deriving DecidableEq, Repr

/-- The function `ExtractTemp`. `marshal` stands for `json.Marshal`, `now` for
the clock reading. -/
def ExtractTemp (marshal : BleData → Except GoError Bytes) (now : Time) (a : Advertisement) :
    Extracted :=
  match binaryRead a.ManufacturerData with
  | .error e =>
    { logs := [.logError "error reading mfg data into buffer:" (.io e)]
      payload := []
      err := some (.io e) }
  | .ok hTD =>
    match marshal (tempBleData a now hTD) with
    | .error e => { logs := [], payload := [], err := some e }
    | .ok payload => { logs := [], payload := payload, err := none }

/-- The function `ExtractHumidity`. -/
def ExtractHumidity (marshal : BleData → Except GoError Bytes) (now : Time) (a : Advertisement) :
    Extracted :=
  match binaryRead a.ManufacturerData with
  | .error e =>
    { logs := [.logError "error reading mfg data into buffer:" (.io e)]
      payload := []
      err := some (.io e) }
  | .ok hTD =>
    match marshal (humidityBleData a now hTD) with
    | .error e => { logs := [], payload := [], err := some e }
    | .ok payload => { logs := [], payload := payload, err := none }

/-! ## The advertisement callback -/

/-- The package variables `advHandler` reads: `*senseIngressAddress` and `jwt`. -/
structure Globals where
  senseIngressAddress : String
  jwt : String
deriving DecidableEq, Repr

/-- What resty's `Post` hands back for an event. Either no response at all, a
nil `*Response` next to the error, as when the URL does not parse; or a
response, with its status code (0 when the transport failed) and the error. -/
inductive HttpAnswer where
  | noResponse (err : GoError)
  | response (statusCode : Int) (err : Option GoError)
deriving DecidableEq, Repr

/-- What resty's `Post` hands back for the registration: no response at all,
or a response with its status code, the token of the decoded body, and the
error. -/
inductive RegistrationAnswer where
  | noResponse (err : GoError)
  | response (statusCode : Int) (token : String) (err : Option GoError)
deriving DecidableEq, Repr

/-- What the outside world supplies while one advertisement is handled: the
JSON encoder, the two clock readings, and what the HTTP client hands back for
the two POSTs. -/
structure HandlerWorld where
  marshal : BleData → Except GoError Bytes
  nowTemp : Time
  nowHumidity : Time
  postTemp : HttpAnswer
  postHumidity : HttpAnswer

/-- The statement `if err != nil { log.Println(err.Error()) }`. -/
def logIfError : Option GoError → List Effect
  | some e => [.logError "" e]
  | none => []

/-- The message of the run-time panic on `resp.StatusCode()` with a nil `resp`. -/
def nilDereference : String := "invalid memory address or nil pointer dereference"

/-- The function `PostEvent`: one POST of the payload with the token. It ends
with `return resp.StatusCode(), err` and so panics when there is no response;
`none` stands for that panic. -/
def PostEvent (url jwt : String) (event : Bytes) (answer : HttpAnswer) :
    List Effect × Option (Int × Option GoError) :=
  match answer with
  | .noResponse _ => ([.postEvent url jwt event, .panic nilDereference], none)
  | .response statusCode err => ([.postEvent url jwt event], some (statusCode, err))

/-- Outcome of handling advertisements: the effects, and whether the handler
panicked instead of returning. -/
structure Handled where
  trace : List Effect
  panicked : Bool
deriving DecidableEq, Repr

/-- The function `advHandler`: the effects of handling one advertisement. -/
def advHandler (g : Globals) (w : HandlerWorld) (a : Advertisement) : Handled :=
  if a.ManufacturerData.length > 0 then
    if a.LocalName = pattern.Name && deepEqualSvcs a.Services pattern.Svcs then
      let t := ExtractTemp w.marshal w.nowTemp a
      let sent₁ := PostEvent (g.senseIngressAddress ++ "/v1/iot/events") g.jwt t.payload w.postTemp
      match sent₁.2 with
      | none => { trace := t.logs ++ logIfError t.err ++ sent₁.1, panicked := true }
      | some (statusCode₁, err₁) =>
        let h := ExtractHumidity w.marshal w.nowHumidity a
        let sent₂ :=
          PostEvent (g.senseIngressAddress ++ "/v1/iot/events") g.jwt h.payload w.postHumidity
        let before := t.logs ++ logIfError t.err
          ++ sent₁.1 ++ logIfError err₁ ++ [.logMsg t.payload statusCode₁]
          ++ h.logs ++ logIfError h.err ++ sent₂.1
        match sent₂.2 with
        | none => { trace := before, panicked := true }
        | some (statusCode₂, err₂) =>
          { trace := before ++ logIfError err₂ ++ [.logMsg h.payload statusCode₂]
            panicked := false }
    else { trace := [], panicked := false }
  else { trace := [], panicked := false }

/-- The callback driven over a stream of advertisements, one after the other,
until one of them panics. -/
def handleAll (g : Globals) : List (HandlerWorld × Advertisement) → Handled
  | [] => { trace := [], panicked := false }
  | (w, a) :: rest =>
    let first := advHandler g w a
    if first.panicked then first
    else
      { trace := first.trace ++ (handleAll g rest).trace
        panicked := (handleAll g rest).panicked }

/-- The deliveries in a trace: URL, token and payload of every POST of an event. -/
def deliveries : List Effect → List (String × String × Bytes)
  | [] => []
  | .postEvent url jwt payload :: rest => (url, jwt, payload) :: deliveries rest
  | _ :: rest => deliveries rest

/-! ## Start-up: configuration and credential -/

/-- The type `Config`. -/
structure Config where
  SenseIngressAddress : String
  SenseIngressAPIKey : String
deriving DecidableEq, Repr

/-- What the outside world supplies to `main`: the current user's home
directory, the result of `GetConfig`, the flag `-force-register`, the result of
`GetJwtFromFile`, what the HTTP client hands back for the registration, the
result of `PutJwtToFile`, and the errors of `dev.DefaultDevice` and `ble.Scan`. -/
structure MainWorld where
  userCurrent : Except GoError String
  getConfig : Config × Option GoError
  forceRegister : Bool
  getJwtFromFile : String × Option GoError
  doRegistration : RegistrationAnswer
  putJwtToFile : Option GoError
  defaultDevice : Option GoError
  scan : Option GoError

/-- One run of the process: its effects in order, its exit status (2 after a
panic), and the value of the package variable `jwt` when it ends. -/
structure Run where
  trace : List Effect
  exitStatus : Nat
  jwt : String
deriving DecidableEq, Repr

/-- The function `DoRegistration`: one POST of the device descriptor. It ends
with `return resp.StatusCode(), *response, err` and so panics when there is no
response; `none` stands for that panic. -/
def DoRegistration (url apiKey : String) (answer : RegistrationAnswer) :
    List Effect × Option (Int × String × Option GoError) :=
  match answer with
  | .noResponse _ => ([.register url apiKey, .panic nilDereference], none)
  | .response statusCode token err => ([.register url apiKey], some (statusCode, token, err))

/-- The registration branch of `main`, entered when `-force-register` is set or
the token file could not be read. -/
def mainRegister (w : MainWorld) (config : Config) (jwtFileName : String) (jwt : String)
    (before : List Effect) : Run :=
  let url := config.SenseIngressAddress ++ "/v1/registration"
  let called := DoRegistration url config.SenseIngressAPIKey w.doRegistration
  let t := before
    ++ [.logText "doing registration (no jwt file present or -force-register specified)"]
    ++ called.1
  match called.2 with
  | none => { trace := t, exitStatus := 2, jwt := jwt }
  | some (_, _, some e) =>
    { trace := t ++ [.logError "unable to do registration (with error): " e]
      exitStatus := 1
      jwt := jwt }
  | some (statusCode, token, none) =>
    if statusCode ≠ 200 then
      { trace := t ++ [.logStatus "unable to do registration (with status code): " statusCode]
        exitStatus := 1
        jwt := jwt }
    else
      let t := t ++ [.logText "writing to jwt file", .writeJwt jwtFileName token]
      { trace := t ++ (match w.putJwtToFile with
          | some e => [.logError "unable to write JWT: " e]
          | none => [])
        exitStatus := 0
        jwt := token }

/-- The function `chkErr`, applied to the result of `ble.Scan`. -/
def chkErr : Option GoError → List Effect
  | none => []
  | some .deadlineExceeded => [.logText "done"]
  | some .canceled => [.logText "scanning canceled"]
  | some e => [.logError "" e]

/-- The scanning part of `main`, reached with the token read from the file. -/
def mainScan (w : MainWorld) (config : Config) (jwt : String) (before : List Effect) : Run :=
  let t := before ++ [.logText "got jwt from file", .logText "setting up ble listener", .setupDevice]
  match w.defaultDevice with
  | some e => { trace := t ++ [.logError "error setting up ble listener:" e], exitStatus := 1, jwt := jwt }
  | none =>
    { trace := t ++ [.logText "scanning ble", .scan config.SenseIngressAddress jwt]
        ++ chkErr w.scan
        ++ [.logText "done scanning ble", .logText "cleaning up", .logText "bye"]
      exitStatus := 0
      jwt := jwt }

/-- The function `main`. The wait for a termination signal after the scan has
no effect of its own and is left out. -/
def main (w : MainWorld) : Run :=
  match w.userCurrent with
  | .error e =>
    { trace := [.logError "unable to get current user's home directory:" e], exitStatus := 1, jwt := "" }
  | .ok userHomeDir =>
    let jwtFileName := userHomeDir ++ "/.sense/ble-client-jwt"
    let configFileName := userHomeDir ++ "/.sense/ble-client-conf.json"
    let config := w.getConfig.1
    match w.getConfig.2 with
    | some e =>
      { trace := [.readConfig configFileName, .logError "unable to read configuration file" e]
        exitStatus := 1
        jwt := "" }
    | none =>
      let t := [.readConfig configFileName,
                .print config.SenseIngressAddress config.SenseIngressAPIKey]
      if config.SenseIngressAddress.length = 0 then
        { trace := t ++ [.logText
            "no Sixgill Sense Ingress API server address specified (sense-ingress-address)"]
          exitStatus := 1
          jwt := "" }
      else if config.SenseIngressAPIKey.length = 0 then
        { trace := t ++ [.logText
            "no Sixgill Sense Ingress API key specified (sense-ingress-api-key)"]
          exitStatus := 1
          jwt := "" }
      else
        let t := t ++ [.readJwt jwtFileName, .logText "read from jwt file"]
        let jwt := w.getJwtFromFile.1
        if w.forceRegister || w.getJwtFromFile.2.isSome then
          mainRegister w config jwtFileName jwt t
        else
          mainScan w config jwt t

/-- Whether an effect is the start of the scan. -/
def Effect.isScan : Effect → Bool
  | .scan _ _ => true
  | _ => false

/-- Whether an effect is a write of the token store. -/
def Effect.isWriteJwt : Effect → Bool
  | .writeJwt _ _ => true
  | _ => false

/-- Whether an effect is a registration exchange. -/
def Effect.isRegister : Effect → Bool
  | .register _ _ => true
  | _ => false

/-- The run starts to scan. -/
def Run.startsScanning (r : Run) : Bool := r.trace.any Effect.isScan

/-- The run attempts to write the token store. -/
def Run.writesStore (r : Run) : Bool := r.trace.any Effect.isWriteJwt

/-- Number of registration exchanges of the run. -/
def Run.registrations (r : Run) : Nat := r.trace.countP Effect.isRegister

/-- The registration did not succeed: no response, an error, or a status code
other than 200. -/
def RegistrationAnswer.failed : RegistrationAnswer → Bool
  | .noResponse _ => true
  | .response statusCode _ err => err.isSome || statusCode != 200

/-- The token file of the user whose home directory is `home`. -/
def jwtFileOf (home : String) : String := home ++ "/.sense/ble-client-jwt"

/-- The payload a builder hands to the delivery: the encoding when
`json.Marshal` succeeds, the empty slice when it fails. -/
def payloadOf : Except GoError Bytes → Bytes
  | .ok p => p
  | .error _ => []

/-- An advertisement of the sensor class with a one-byte manufacturer payload. -/
def shortAdvertisement : Advertisement :=
  { LocalName := "HumiTemp Sensor Tag"
    ManufacturerData := [0]
    Services := some [some [0x20, 0xaa]]
    RSSI := -40 }

/-- A world for one advertisement: an encoder that always succeeds and two
HTTP exchanges answered with status 200. -/
def calmWorld : HandlerWorld :=
  { marshal := fun _ => .ok [0x7b, 0x7d]
    nowTemp := ⟨0⟩
    nowHumidity := ⟨1⟩
    postTemp := .response 200 none
    postHumidity := .response 200 none }

/-- Package variables after a successful start-up. -/
def sampleGlobals : Globals := { senseIngressAddress := "http://ingress", jwt := "token" }

/-- Package variables after a start-up whose configured address is an IP
address with a port, as the comment on `Config.SenseIngressAddress` describes
the field. -/
def hostPortGlobals : Globals := { senseIngressAddress := "192.168.1.1:8080", jwt := "token" }

/-- An advertisement of the sensor class with a 13-byte manufacturer payload. -/
def fullAdvertisement : Advertisement :=
  { LocalName := "HumiTemp Sensor Tag"
    ManufacturerData := [0, 23, 5, 0, 40, 0, 1, 0x00, 0x1A, 0x2B, 0xFF, 0x00, 0x11]
    Services := some [some [0x20, 0xaa]]
    RSSI := -40 }

/-- A world in which the HTTP client hands back no response, as it does for
the URL `192.168.1.1:8080/v1/iot/events`, which does not parse. -/
def unparsedUrlWorld : HandlerWorld :=
  { marshal := fun _ => .ok [0x7b, 0x7d]
    nowTemp := ⟨0⟩
    nowHumidity := ⟨1⟩
    postTemp := .noResponse (.other "first path segment in URL cannot contain colon")
    postHumidity := .noResponse (.other "first path segment in URL cannot contain colon") }

/-- A start-up with a valid configuration, no `-force-register`, an unreadable
token file, and a registration answered with status 200 and a token. -/
def firstRunWorld : MainWorld :=
  { userCurrent := .ok "/home/gw"
    getConfig := ({ SenseIngressAddress := "http://ingress", SenseIngressAPIKey := "key" }, none)
    forceRegister := false
    getJwtFromFile := ("", some (.other "open /home/gw/.sense/ble-client-jwt: no such file"))
    doRegistration := .response 200 "fresh-token" none
    putJwtToFile := none
    defaultDevice := none
    scan := none }

/-- A start-up with `-force-register`, a readable token file, and a
registration answered with status 500. -/
def forcedRejectedWorld : MainWorld :=
  { userCurrent := .ok "/home/gw"
    getConfig := ({ SenseIngressAddress := "http://ingress", SenseIngressAPIKey := "key" }, none)
    forceRegister := true
    getJwtFromFile := ("old-token", none)
    doRegistration := .response 500 "" none
    putJwtToFile := none
    defaultDevice := none
    scan := none }

/-- A start-up with `-force-register`, a readable token file, a registration
answered with status 200, and a token store that cannot be written. -/
def forcedWorld : MainWorld :=
  { userCurrent := .ok "/home/gw"
    getConfig := ({ SenseIngressAddress := "http://ingress", SenseIngressAPIKey := "key" }, none)
    forceRegister := true
    getJwtFromFile := ("old-token", none)
    doRegistration := .response 200 "fresh-token" none
    putJwtToFile := some (.other "permission denied")
    defaultDevice := none
    scan := none }

/-- A start-up with an unreadable token file and an address that is an IP
address with a port: the registration URL does not parse and the HTTP client
hands back no response. -/
def unparsedAddressWorld : MainWorld :=
  { userCurrent := .ok "/home/gw"
    getConfig := ({ SenseIngressAddress := "192.168.1.1:8080", SenseIngressAPIKey := "key" }, none)
    forceRegister := false
    getJwtFromFile := ("", some (.other "open /home/gw/.sense/ble-client-jwt: no such file"))
    doRegistration := .noResponse (.other "first path segment in URL cannot contain colon")
    putJwtToFile := none
    defaultDevice := none
    scan := none }

/-- A decoded record reading +0.1 degrees and +0.1 % relative humidity. -/
def tenthRecord : HumiTempData :=
  { TemperatureSign := 0, TemperatureWhole := 0, TemperatureFraction := 1
    HumiditySign := 0, HumidityWhole := 0, HumidityFraction := 1
    UpdateRate := 0, Address := [0x00, 0x1A, 0x2B, 0xFF, 0x00, 0x11] }

/-- A decoded record reading -23.5 degrees and +23.5 % relative humidity. -/
def halfRecord : HumiTempData :=
  { TemperatureSign := 1, TemperatureWhole := 23, TemperatureFraction := 5
    HumiditySign := 0, HumidityWhole := 23, HumidityFraction := 5
    UpdateRate := 0, Address := [0x00, 0x1A, 0x2B, 0xFF, 0x00, 0x11] }

/-! ## Decoding -/

theorem binaryRead_of_le (data : Bytes) (h : 13 ≤ data.length) :
    binaryRead data = .ok (decodeFields (data.take 13)) := by
  unfold binaryRead readFull humiTempDataSize
  have h0 : data.length ≠ 0 := by omega
  have h1 : ¬ data.length < 7 + 6 := by omega
  simp [h0, h1]

theorem binaryRead_of_lt (data : Bytes) (h : data.length < 13) :
    binaryRead data = .error (if data.length = 0 then .EOF else .ErrUnexpectedEOF) := by
  unfold binaryRead readFull humiTempDataSize
  by_cases h0 : data.length = 0
  · simp [h0]
  · have h1 : data.length < 7 + 6 := by omega
    simp [h0, h1]

theorem decodeFields_take (data : Bytes) (h : 13 ≤ data.length) :
    data[0]? = some (decodeFields (data.take 13)).TemperatureSign ∧
    data[1]? = some (decodeFields (data.take 13)).TemperatureWhole ∧
    data[2]? = some (decodeFields (data.take 13)).TemperatureFraction ∧
    data[3]? = some (decodeFields (data.take 13)).HumiditySign ∧
    data[4]? = some (decodeFields (data.take 13)).HumidityWhole ∧
    data[5]? = some (decodeFields (data.take 13)).HumidityFraction ∧
    data[6]? = some (decodeFields (data.take 13)).UpdateRate ∧
    (decodeFields (data.take 13)).Address = (data.drop 7).take 6 ∧
    (decodeFields (data.take 13)).Address.length = 6 := by
  rcases data with _ | ⟨a0, _ | ⟨a1, _ | ⟨a2, _ | ⟨a3, _ | ⟨a4, _ | ⟨a5, _ | ⟨a6, _ | ⟨a7, _ | ⟨a8,
    _ | ⟨a9, _ | ⟨a10, _ | ⟨a11, _ | ⟨a12, rest⟩⟩⟩⟩⟩⟩⟩⟩⟩⟩⟩⟩⟩ <;>
    simp at h
  simp [decodeFields]

theorem binaryWrite_decodeFields (data : Bytes) (h : data.length = 13) :
    binaryWrite (decodeFields (data.take 13)) = data := by
  rcases data with _ | ⟨a0, _ | ⟨a1, _ | ⟨a2, _ | ⟨a3, _ | ⟨a4, _ | ⟨a5, _ | ⟨a6, _ | ⟨a7, _ | ⟨a8,
    _ | ⟨a9, _ | ⟨a10, _ | ⟨a11, _ | ⟨a12, rest⟩⟩⟩⟩⟩⟩⟩⟩⟩⟩⟩⟩⟩ <;>
    simp at h
  subst h
  simp [decodeFields, binaryWrite]

/-- C10. The decoding step succeeds exactly when the payload has at least 13
bytes; on success the seven scalar fields are payload bytes 0..6 in declaration
order and `Address` is bytes 7..12, whatever follows the 13th byte being
ignored; on failure `ExtractTemp` and `ExtractHumidity` return an error together
with an empty payload. -/
theorem decode_succeeds_iff_thirteen_bytes (data : Bytes) :
    ((∃ hTD, binaryRead data = .ok hTD) ↔ 13 ≤ data.length) ∧
    (∀ hTD, binaryRead data = .ok hTD →
      data[0]? = some hTD.TemperatureSign ∧ data[1]? = some hTD.TemperatureWhole ∧
      data[2]? = some hTD.TemperatureFraction ∧ data[3]? = some hTD.HumiditySign ∧
      data[4]? = some hTD.HumidityWhole ∧ data[5]? = some hTD.HumidityFraction ∧
      data[6]? = some hTD.UpdateRate ∧ hTD.Address = (data.drop 7).take 6 ∧
      hTD.Address.length = 6 ∧
      ∀ extra, binaryRead (data ++ extra) = .ok hTD) ∧
    (data.length < 13 →
      ∀ (marshal : BleData → Except GoError Bytes) (now : Time) (a : Advertisement),
        a.ManufacturerData = data →
        (ExtractTemp marshal now a).payload = [] ∧ (ExtractTemp marshal now a).err.isSome ∧
        (ExtractHumidity marshal now a).payload = [] ∧
        (ExtractHumidity marshal now a).err.isSome) := by
  refine ⟨?_, ?_, ?_⟩
  · constructor
    · rintro ⟨hTD, h⟩
      by_contra hlt
      rw [binaryRead_of_lt data (by omega)] at h
      cases h
    · intro h
      exact ⟨_, binaryRead_of_le data h⟩
  · intro hTD h
    have hle : 13 ≤ data.length := by
      by_contra hlt
      rw [binaryRead_of_lt data (by omega)] at h
      cases h
    rw [binaryRead_of_le data hle] at h
    injection h with h
    subst h
    obtain ⟨h0, h1, h2, h3, h4, h5, h6, h7, h8⟩ := decodeFields_take data hle
    refine ⟨h0, h1, h2, h3, h4, h5, h6, h7, h8, ?_⟩
    intro extra
    rw [binaryRead_of_le (data ++ extra) (by simp; omega)]
    rw [List.take_append_of_le_length hle]
  · intro hlt marshal now a ha
    subst ha
    simp [ExtractTemp, ExtractHumidity, binaryRead_of_lt _ hlt]

/-- C10, at a 15-byte payload: the record is read from the first 13 bytes. -/
theorem decode_succeeds_iff_thirteen_bytes_witness :
    binaryRead (List.range 15) =
      .ok ⟨0, 1, 2, 3, 4, 5, 6, [7, 8, 9, 10, 11, 12]⟩ ∧
    (ExtractTemp (fun _ => .ok [1]) ⟨0⟩ shortAdvertisement).payload = [] := by
  have h := decode_succeeds_iff_thirteen_bytes shortAdvertisement.ManufacturerData
  exact ⟨rfl, (h.2.2 (by decide) _ _ _ rfl).1⟩

/-- C3, refuted as stated: a payload of 12 bytes is one byte short of the
record, and its decoding fails with an unexpected end of input. -/
theorem twelve_byte_payload_does_not_decode :
    binaryRead [0, 0, 0, 0, 0, 0, 0, 0, 0, 0, 0, 0] = .error .ErrUnexpectedEOF ∧
    ¬ (∀ data : Bytes, data.length = 12 → ∃ hTD, binaryRead data = .ok hTD) := by
  refine ⟨rfl, ?_⟩
  intro h
  obtain ⟨hTD, hh⟩ := h [0, 0, 0, 0, 0, 0, 0, 0, 0, 0, 0, 0] rfl
  cases hh

/-- C3, amended. Every payload of exactly 13 bytes decodes, and writing the
decoded record back with the same layout gives the 13 bytes again. -/
theorem thirteen_byte_roundtrip (data : Bytes) (h : data.length = 13) :
    ∃ hTD, binaryRead data = .ok hTD ∧ binaryWrite hTD = data :=
  ⟨_, binaryRead_of_le data (by omega), binaryWrite_decodeFields data h⟩

/-- C3, amended, at the payload `1, 2, …, 13`. -/
theorem thirteen_byte_roundtrip_witness :
    ∃ hTD, binaryRead [1, 2, 3, 4, 5, 6, 7, 8, 9, 10, 11, 12, 13] = .ok hTD ∧
      binaryWrite hTD = [1, 2, 3, 4, 5, 6, 7, 8, 9, 10, 11, 12, 13] :=
  thirteen_byte_roundtrip [1, 2, 3, 4, 5, 6, 7, 8, 9, 10, 11, 12, 13] (by decide)

/-! ## Rendering the address -/

/-- C1, on the address of the specification: `byteAddressToString` prints each
byte with the verb `%X`, which does not pad, so the bytes `0x00` come out as
the single digit `0` and the result has 15 characters, not the 17 of
`00:1A:2B:FF:00:11`. -/
theorem byteAddressToString_drops_leading_zero :
    byteAddressToString [0x00, 0x1A, 0x2B, 0xFF, 0x00, 0x11] = "0:1A:2B:FF:0:11" ∧
    byteAddressToString [0x00, 0x1A, 0x2B, 0xFF, 0x00, 0x11] ≠ "00:1A:2B:FF:00:11" ∧
    (byteAddressToString [0x00, 0x1A, 0x2B, 0xFF, 0x00, 0x11]).length = 15 := by
  decide

/-! ## The advertisement callback -/

theorem deepEqualUUID_iff (u v : UUID) : deepEqualUUID u v = true ↔ u = v := by
  cases u <;> cases v <;> simp [deepEqualUUID]

theorem deepEqualElems_iff (us vs : List UUID) : deepEqualElems us vs = true ↔ us = vs := by
  induction us generalizing vs with
  | nil => cases vs <;> simp [deepEqualElems]
  | cons u us ih => cases vs <;> simp [deepEqualElems, deepEqualUUID_iff, ih]

theorem deepEqualSvcs_iff (a b : Option (List UUID)) : deepEqualSvcs a b = true ↔ a = b := by
  cases a <;> cases b <;> simp [deepEqualSvcs, deepEqualElems_iff]
  intro h
  rw [h]

theorem deliveries_append (s t : List Effect) :
    deliveries (s ++ t) = deliveries s ++ deliveries t := by
  induction s with
  | nil => rfl
  | cons e s ih => cases e <;> simp [deliveries, ih]

theorem deliveries_logIfError (e : Option GoError) : deliveries (logIfError e) = [] := by
  cases e <;> rfl

theorem ExtractTemp_payload_of_decoded (marshal : BleData → Except GoError Bytes) (now : Time)
    (a : Advertisement) (hTD : HumiTempData) (h : binaryRead a.ManufacturerData = .ok hTD) :
    (ExtractTemp marshal now a).payload = payloadOf (marshal (tempBleData a now hTD)) := by
  unfold ExtractTemp
  rw [h]
  cases hm : marshal (tempBleData a now hTD) <;> simp [hm, payloadOf]

theorem ExtractHumidity_payload_of_decoded (marshal : BleData → Except GoError Bytes)
    (now : Time) (a : Advertisement) (hTD : HumiTempData)
    (h : binaryRead a.ManufacturerData = .ok hTD) :
    (ExtractHumidity marshal now a).payload = payloadOf (marshal (humidityBleData a now hTD)) := by
  unfold ExtractHumidity
  rw [h]
  cases hm : marshal (humidityBleData a now hTD) <;> simp [hm, payloadOf]

/-- When the HTTP client hands back a response for both POSTs, a matching
advertisement is followed by two deliveries and the handler returns. -/
theorem deliveries_advHandler_answered (g : Globals) (w : HandlerWorld) (a : Advertisement)
    (s₁ s₂ : Int) (e₁ e₂ : Option GoError)
    (hdata : a.ManufacturerData ≠ []) (hname : a.LocalName = pattern.Name)
    (hsvcs : a.Services = pattern.Svcs)
    (h₁ : w.postTemp = .response s₁ e₁) (h₂ : w.postHumidity = .response s₂ e₂) :
    deliveries (advHandler g w a).trace =
      [(g.senseIngressAddress ++ "/v1/iot/events", g.jwt,
          (ExtractTemp w.marshal w.nowTemp a).payload),
       (g.senseIngressAddress ++ "/v1/iot/events", g.jwt,
          (ExtractHumidity w.marshal w.nowHumidity a).payload)] ∧
    (advHandler g w a).panicked = false := by
  have hlen : a.ManufacturerData.length > 0 := List.length_pos.mpr hdata
  have hs : deepEqualSvcs a.Services pattern.Svcs = true := (deepEqualSvcs_iff _ _).mpr hsvcs
  have hlogsT : deliveries (ExtractTemp w.marshal w.nowTemp a).logs = [] := by
    unfold ExtractTemp
    split
    · rfl
    · split <;> rfl
  have hlogsH : deliveries (ExtractHumidity w.marshal w.nowHumidity a).logs = [] := by
    unfold ExtractHumidity
    split
    · rfl
    · split <;> rfl
  simp [advHandler, hlen, hname, hs, PostEvent, h₁, h₂, deliveries_append,
    deliveries_logIfError, hlogsT, hlogsH, deliveries]

/-- C4, on a matching advertisement with a one-byte payload: the decoding
fails, the error is logged, and `advHandler` still posts twice, each time an
empty payload; the handler returns, and an advertisement that follows is
handled as usual. -/
theorem short_payload_is_still_posted :
    (ExtractTemp calmWorld.marshal calmWorld.nowTemp shortAdvertisement).err =
      some (.io .ErrUnexpectedEOF) ∧
    deliveries (advHandler sampleGlobals calmWorld shortAdvertisement).trace =
      [("http://ingress/v1/iot/events", "token", []),
       ("http://ingress/v1/iot/events", "token", [])] ∧
    (advHandler sampleGlobals calmWorld shortAdvertisement).panicked = false ∧
    deliveries (handleAll sampleGlobals
        [(calmWorld, shortAdvertisement),
         (calmWorld, { shortAdvertisement with ManufacturerData := List.range 13 })]).trace =
      [("http://ingress/v1/iot/events", "token", []),
       ("http://ingress/v1/iot/events", "token", []),
       ("http://ingress/v1/iot/events", "token", [0x7b, 0x7d]),
       ("http://ingress/v1/iot/events", "token", [0x7b, 0x7d])] := by
  decide

/-- C5. An advertisement with an empty manufacturer payload, or a name other
than the pattern's, or a service list other than the pattern's, has no effect
at all: no event is built, nothing is delivered, and the handler returns. -/
theorem non_matching_advertisement_is_discarded (g : Globals) (w : HandlerWorld)
    (a : Advertisement)
    (h : a.ManufacturerData = [] ∨ a.LocalName ≠ pattern.Name ∨ a.Services ≠ pattern.Svcs) :
    advHandler g w a = { trace := [], panicked := false } ∧
    deliveries (advHandler g w a).trace = [] := by
  have key : advHandler g w a = { trace := [], panicked := false } := by
    unfold advHandler
    rcases h with h | h | h
    · simp [h]
    · simp [h]
    · have hs : deepEqualSvcs a.Services pattern.Svcs = false := by
        rw [Bool.eq_false_iff]
        intro hh
        exact h ((deepEqualSvcs_iff _ _).mp hh)
      simp [hs]
  rw [key]
  exact ⟨rfl, rfl⟩

/-- C5, at an advertisement of the right name and payload whose service list
is `nil`. -/
theorem non_matching_advertisement_is_discarded_witness :
    advHandler sampleGlobals calmWorld
        { LocalName := "HumiTemp Sensor Tag", ManufacturerData := List.range 13,
          Services := none, RSSI := -40 } = { trace := [], panicked := false } ∧
      deliveries (advHandler sampleGlobals calmWorld
        { LocalName := "HumiTemp Sensor Tag", ManufacturerData := List.range 13,
          Services := none, RSSI := -40 }).trace = [] :=
  non_matching_advertisement_is_discarded sampleGlobals calmWorld _
    (Or.inr (Or.inr (by decide)))

/-- When the HTTP client hands back a response for both POSTs, a matching
advertisement whose payload decodes to `hTD` is followed by exactly two
deliveries to the events endpoint with the held token: first the encoded
temperature event (ID `Temperature`, units `C`), then the encoded humidity
event (ID `Humidity`, units `% RH`); both events carry the advertisement's
signal strength and the identifier rendered from the record's address. -/
theorem answered_advertisement_delivers_two_events (g : Globals) (w : HandlerWorld)
    (a : Advertisement) (hTD : HumiTempData) (s₁ s₂ : Int) (e₁ e₂ : Option GoError)
    (hname : a.LocalName = pattern.Name) (hsvcs : a.Services = pattern.Svcs)
    (hdec : binaryRead a.ManufacturerData = .ok hTD)
    (h₁ : w.postTemp = .response s₁ e₁) (h₂ : w.postHumidity = .response s₂ e₂) :
    deliveries (advHandler g w a).trace =
      [(g.senseIngressAddress ++ "/v1/iot/events", g.jwt,
          payloadOf (w.marshal (tempBleData a w.nowTemp hTD))),
       (g.senseIngressAddress ++ "/v1/iot/events", g.jwt,
          payloadOf (w.marshal (humidityBleData a w.nowHumidity hTD)))] ∧
    (tempBleData a w.nowTemp hTD).ID = "Temperature" ∧
    (tempBleData a w.nowTemp hTD).Units = "C" ∧
    (tempBleData a w.nowTemp hTD).Rssi = a.RSSI ∧
    (tempBleData a w.nowTemp hTD).NodeID = byteAddressToString hTD.Address ∧
    (humidityBleData a w.nowHumidity hTD).ID = "Humidity" ∧
    (humidityBleData a w.nowHumidity hTD).Units = "% RH" ∧
    (humidityBleData a w.nowHumidity hTD).Rssi = a.RSSI ∧
    (humidityBleData a w.nowHumidity hTD).NodeID = byteAddressToString hTD.Address := by
  have hdata : a.ManufacturerData ≠ [] := by
    intro h0
    rw [h0] at hdec
    cases hdec
  refine ⟨?_, ?_, ?_, ?_, ?_, ?_, ?_, ?_, ?_⟩
  · rw [(deliveries_advHandler_answered g w a s₁ s₂ e₁ e₂ hdata hname hsvcs h₁ h₂).1,
      ExtractTemp_payload_of_decoded _ _ _ _ hdec,
      ExtractHumidity_payload_of_decoded _ _ _ _ hdec]
  all_goals
    first
    | (unfold tempBleData; split <;> rfl)
    | (unfold humidityBleData; split <;> rfl)

/-- C6, on a matching advertisement with a decodable payload when the
configured address is `192.168.1.1:8080`: the URL of the first POST does not
parse, the HTTP client hands back no response, `PostEvent` panics on
`resp.StatusCode()`, and the humidity event is never posted. -/
theorem second_delivery_lost_when_first_has_no_response :
    binaryRead fullAdvertisement.ManufacturerData
      = .ok ⟨0, 23, 5, 0, 40, 0, 1, [0x00, 0x1A, 0x2B, 0xFF, 0x00, 0x11]⟩ ∧
    deliveries (advHandler hostPortGlobals unparsedUrlWorld fullAdvertisement).trace =
      [("192.168.1.1:8080/v1/iot/events", "token", [0x7b, 0x7d])] ∧
    (advHandler hostPortGlobals unparsedUrlWorld fullAdvertisement).panicked = true := by
  refine ⟨rfl, ?_, ?_⟩ <;> decide

/-! ## Start-up -/

theorem main_of_valid (w : MainWorld) (home : String) (hu : w.userCurrent = .ok home)
    (hc : w.getConfig.2 = none) (ha : w.getConfig.1.SenseIngressAddress.length ≠ 0)
    (hk : w.getConfig.1.SenseIngressAPIKey.length ≠ 0) :
    main w =
      if w.forceRegister || w.getJwtFromFile.2.isSome then
        mainRegister w w.getConfig.1 (jwtFileOf home) w.getJwtFromFile.1
          [.readConfig (home ++ "/.sense/ble-client-conf.json"),
           .print w.getConfig.1.SenseIngressAddress w.getConfig.1.SenseIngressAPIKey,
           .readJwt (jwtFileOf home), .logText "read from jwt file"]
      else
        mainScan w w.getConfig.1 w.getJwtFromFile.1
          [.readConfig (home ++ "/.sense/ble-client-conf.json"),
           .print w.getConfig.1.SenseIngressAddress w.getConfig.1.SenseIngressAPIKey,
           .readJwt (jwtFileOf home), .logText "read from jwt file"] := by
  unfold main
  simp [hu, hc, ha, hk, jwtFileOf]

theorem mainRegister_accepted (w : MainWorld) (config : Config) (file jwt token : String)
    (before : List Effect) (h : w.doRegistration = .response 200 token none) :
    mainRegister w config file jwt before =
      { trace := before
          ++ [.logText "doing registration (no jwt file present or -force-register specified)"]
          ++ [.register (config.SenseIngressAddress ++ "/v1/registration")
                config.SenseIngressAPIKey]
          ++ [.logText "writing to jwt file", .writeJwt file token]
          ++ (match w.putJwtToFile with
              | some e => [.logError "unable to write JWT: " e]
              | none => [])
        exitStatus := 0
        jwt := token } := by
  unfold mainRegister DoRegistration
  rw [h]
  simp

theorem mainRegister_failed (w : MainWorld) (config : Config) (file jwt : String)
    (before : List Effect) (h : w.doRegistration.failed = true) :
    (mainRegister w config file jwt before).exitStatus ≠ 0 ∧
    (mainRegister w config file jwt before).writesStore = before.any Effect.isWriteJwt ∧
    (mainRegister w config file jwt before).startsScanning = before.any Effect.isScan ∧
    (mainRegister w config file jwt before).registrations
      = before.countP Effect.isRegister + 1 := by
  unfold mainRegister DoRegistration
  rcases hreg : w.doRegistration with e | ⟨statusCode, token, _ | e⟩
  · simp [Run.registrations, Run.startsScanning, Run.writesStore, Effect.isRegister,
      Effect.isScan, Effect.isWriteJwt, List.countP_cons, List.countP_append]
  · rw [hreg] at h
    have hs : statusCode ≠ 200 := by
      simpa [RegistrationAnswer.failed] using h
    simp [hs, Run.registrations, Run.startsScanning, Run.writesStore, Effect.isRegister,
      Effect.isScan, Effect.isWriteJwt, List.countP_cons, List.countP_append]
  · simp [Run.registrations, Run.startsScanning, Run.writesStore, Effect.isRegister,
      Effect.isScan, Effect.isWriteJwt, List.countP_cons, List.countP_append]

theorem mainRegister_exitStatus_putJwtToFile (w : MainWorld) (config : Config)
    (file jwt : String) (before : List Effect) (p : Option GoError) :
    (mainRegister { w with putJwtToFile := p } config file jwt before).exitStatus
      = (mainRegister w config file jwt before).exitStatus := by
  unfold mainRegister DoRegistration
  rcases w.doRegistration with e | ⟨statusCode, token, _ | e⟩
  · rfl
  · by_cases hs : statusCode ≠ 200 <;> simp [hs]
  · rfl

/-- C7, on a first run: with a valid configuration, no readable token, no
`-force-register` and a registration answered with status 200 and a token, the
run writes the token file and exits with status 0; it never starts to scan. -/
theorem fresh_registration_exits_without_scanning :
    firstRunWorld.forceRegister = false ∧ firstRunWorld.getJwtFromFile.2.isSome = true ∧
    firstRunWorld.doRegistration = .response 200 "fresh-token" none ∧
    (main firstRunWorld).jwt = "fresh-token" ∧ (main firstRunWorld).writesStore = true ∧
    (main firstRunWorld).startsScanning = false ∧ (main firstRunWorld).exitStatus = 0 := by
  decide

/-- C8, refuted as stated: with `-force-register` and a registration answered
with status 500 the run exits with status 1 and no write of the token store is
attempted. -/
theorem forced_registration_rejected_skips_persist :
    forcedRejectedWorld.forceRegister = true ∧
    (main forcedRejectedWorld).registrations = 1 ∧
    (main forcedRejectedWorld).writesStore = false ∧
    (main forcedRejectedWorld).exitStatus = 1 := by
  decide

/-- C8, amended. With `-force-register` and a valid configuration the run
performs the registration exchange, once, whether or not the token file was
readable, and never starts to scan; when the registration is answered with
status 200 and no error the run attempts to write the token and exits with
status 0, and the exit status is the same whatever the write returns; when the
registration fails the run exits with a nonzero status without a write. -/
theorem forced_registration_never_scans (w : MainWorld) (home : String)
    (hu : w.userCurrent = .ok home) (hc : w.getConfig.2 = none)
    (ha : w.getConfig.1.SenseIngressAddress.length ≠ 0)
    (hk : w.getConfig.1.SenseIngressAPIKey.length ≠ 0)
    (hforce : w.forceRegister = true) :
    (main w).registrations = 1 ∧ (main w).startsScanning = false ∧
    (∀ token, w.doRegistration = .response 200 token none →
      Effect.writeJwt (jwtFileOf home) token ∈ (main w).trace ∧ (main w).exitStatus = 0) ∧
    (∀ p, (main { w with putJwtToFile := p }).exitStatus = (main w).exitStatus) ∧
    (w.doRegistration.failed = true →
      (main w).writesStore = false ∧ (main w).exitStatus ≠ 0) := by
  have hmain := main_of_valid w home hu hc ha hk
  rw [hforce] at hmain
  simp only [Bool.true_or, if_true] at hmain
  have hok : ∀ token, w.doRegistration = .response 200 token none →
      (main w).registrations = 1 ∧ (main w).startsScanning = false ∧
      Effect.writeJwt (jwtFileOf home) token ∈ (main w).trace ∧ (main w).exitStatus = 0 := by
    intro token hreg
    rw [hmain, mainRegister_accepted _ _ _ _ _ _ hreg]
    refine ⟨?_, ?_, by simp, rfl⟩
    · cases w.putJwtToFile <;> simp [Run.registrations, Effect.isRegister, List.countP_cons]
    · cases w.putJwtToFile <;> simp [Run.startsScanning, Effect.isScan]
  have hbad : w.doRegistration.failed = true →
      (main w).registrations = 1 ∧ (main w).startsScanning = false ∧
      (main w).writesStore = false ∧ (main w).exitStatus ≠ 0 := by
    intro hreg
    obtain ⟨h1, h2, h3, h4⟩ := mainRegister_failed w w.getConfig.1 (jwtFileOf home)
      w.getJwtFromFile.1 [.readConfig (home ++ "/.sense/ble-client-conf.json"),
           .print w.getConfig.1.SenseIngressAddress w.getConfig.1.SenseIngressAPIKey,
           .readJwt (jwtFileOf home), .logText "read from jwt file"] hreg
    rw [hmain]
    exact ⟨by rw [h4]; rfl, by rw [h3]; rfl, by rw [h2]; rfl, h1⟩
  have hput : ∀ p, (main { w with putJwtToFile := p }).exitStatus = (main w).exitStatus := by
    intro p
    have hmain' := main_of_valid { w with putJwtToFile := p } home hu hc ha hk
    rw [hmain', hmain]
    simp only [hforce, Bool.true_or, if_true]
    exact mainRegister_exitStatus_putJwtToFile w _ _ _ _ p
  by_cases hreg : w.doRegistration.failed = true
  · obtain ⟨h1, h2, h3, h4⟩ := hbad hreg
    refine ⟨h1, h2, ?_, hput, fun _ => ⟨h3, h4⟩⟩
    intro token ht
    rw [ht] at hreg
    simp [RegistrationAnswer.failed] at hreg
  · have ht : ∃ token, w.doRegistration = .response 200 token none := by
      rcases hw : w.doRegistration with e | ⟨statusCode, token, _ | e⟩
      · rw [hw] at hreg
        simp [RegistrationAnswer.failed] at hreg
      · rw [hw] at hreg
        simp [RegistrationAnswer.failed] at hreg
        exact ⟨token, by rw [hreg]⟩
      · rw [hw] at hreg
        simp [RegistrationAnswer.failed] at hreg
    obtain ⟨token, ht⟩ := ht
    obtain ⟨h1, h2, _, _⟩ := hok _ ht
    exact ⟨h1, h2, fun token h => (hok token h).2.2, hput, fun h => absurd h hreg⟩

/-- C8, amended, at a forced registration whose token cannot be written. -/
theorem forced_registration_never_scans_witness :
    (main forcedWorld).registrations = 1 ∧ (main forcedWorld).startsScanning = false ∧
    Effect.writeJwt (jwtFileOf "/home/gw") "fresh-token" ∈ (main forcedWorld).trace ∧
    (main forcedWorld).exitStatus = 0 ∧
    (main { forcedWorld with putJwtToFile := none }).exitStatus = (main forcedWorld).exitStatus :=
  have h := forced_registration_never_scans forcedWorld "/home/gw" rfl rfl
    (by decide) (by decide) rfl
  ⟨h.1, h.2.1, (h.2.2.1 "fresh-token" rfl).1, (h.2.2.1 "fresh-token" rfl).2, h.2.2.2.1 none⟩

/-- C9. Whenever the registration is attempted (the flag is set or the token
file is unreadable) and fails (the HTTP client hands back no response, or an
error, or a status code other than 200), the run ends with a nonzero exit
status, without a write of the token store and without starting to scan, after
exactly one registration attempt. -/
theorem failed_registration_is_fatal (w : MainWorld) (home : String)
    (hu : w.userCurrent = .ok home) (hc : w.getConfig.2 = none)
    (ha : w.getConfig.1.SenseIngressAddress.length ≠ 0)
    (hk : w.getConfig.1.SenseIngressAPIKey.length ≠ 0)
    (hattempt : w.forceRegister = true ∨ w.getJwtFromFile.2.isSome = true)
    (hfail : w.doRegistration.failed = true) :
    (main w).exitStatus ≠ 0 ∧ (main w).writesStore = false ∧
    (main w).startsScanning = false ∧ (main w).registrations = 1 := by
  have hmain := main_of_valid w home hu hc ha hk
  have hcond : (w.forceRegister || w.getJwtFromFile.2.isSome) = true := by
    rcases hattempt with h | h <;> simp [h]
  rw [hcond] at hmain
  simp only [if_true] at hmain
  obtain ⟨h1, h2, h3, h4⟩ := mainRegister_failed w w.getConfig.1 (jwtFileOf home)
    w.getJwtFromFile.1 [.readConfig (home ++ "/.sense/ble-client-conf.json"),
         .print w.getConfig.1.SenseIngressAddress w.getConfig.1.SenseIngressAPIKey,
         .readJwt (jwtFileOf home), .logText "read from jwt file"] hfail
  rw [hmain]
  exact ⟨h1, by rw [h2]; rfl, by rw [h3]; rfl, by rw [h4]; rfl⟩

/-- C9, at a first run whose configured address is `192.168.1.1:8080`: the
registration gets no response and the run ends in a panic, exit status 2. -/
theorem failed_registration_is_fatal_witness :
    (main unparsedAddressWorld).exitStatus = 2 ∧
    (main unparsedAddressWorld).exitStatus ≠ 0 ∧
    (main unparsedAddressWorld).writesStore = false ∧
    (main unparsedAddressWorld).startsScanning = false ∧
    (main unparsedAddressWorld).registrations = 1 :=
  have h := failed_registration_is_fatal unparsedAddressWorld "/home/gw" rfl rfl
    (by decide) (by decide) (Or.inr rfl) rfl
  ⟨by decide, h.1, h.2.1, h.2.2.1, h.2.2.2⟩

/-! ## float64 arithmetic: exact on representable results -/

theorem two_zpow_split (z : ℤ) : (2 : ℚ) ^ z = (2 : ℚ) ^ z.toNat / (2 : ℚ) ^ (-z).toNat := by
  obtain ⟨a, rfl | rfl⟩ := Int.eq_nat_or_neg z
  · simp
  · simp

theorem bitLength_zero (fuel : Nat) : bitLength fuel 0 = 0 := by
  cases fuel <;> simp [bitLength]

theorem bitLength_bounds (fuel n : Nat) (h : n ≤ fuel) (hn : n ≠ 0) :
    2 ^ (bitLength fuel n - 1) ≤ n ∧ n < 2 ^ bitLength fuel n := by
  induction fuel generalizing n with
  | zero => omega
  | succ fuel ih =>
    simp only [bitLength, hn, if_false]
    by_cases h2 : n / 2 = 0
    · have h1 : n = 1 := by omega
      subst h1
      simp [bitLength_zero]
    · obtain ⟨h1, h3⟩ := ih (n / 2) (by omega) h2
      have hb : 1 ≤ bitLength fuel (n / 2) := by
        by_contra hc
        have h0 : bitLength fuel (n / 2) = 0 := by omega
        rw [h0] at h3
        simp at h3
        exact h2 h3
      constructor
      · simp only [Nat.add_sub_cancel]
        have hp : 2 ^ bitLength fuel (n / 2) = 2 * 2 ^ (bitLength fuel (n / 2) - 1) := by
          rw [← pow_succ']
          congr 1
          omega
        omega
      · rw [pow_succ]
        omega

theorem floorLog2_le (n d : Nat) (hn : 0 < n) (hd : 0 < d) :
    (2 : ℚ) ^ floorLog2 n d ≤ (n : ℚ) / d := by
  obtain ⟨hn1, hn2⟩ := bitLength_bounds n n le_rfl hn.ne'
  obtain ⟨_, hd2⟩ := bitLength_bounds d d le_rfl hd.ne'
  have hdq : (0 : ℚ) < d := by exact_mod_cast hd
  unfold floorLog2
  simp only
  split
  · rename_i hle
    rw [two_zpow_split, div_le_div_iff₀ (by positivity) hdq]
    have hq : ((d * 2 ^ ((bitLength n n : ℤ) - (bitLength d d : ℤ)).toNat : ℕ) : ℚ)
        ≤ ((n * 2 ^ (-((bitLength n n : ℤ) - (bitLength d d : ℤ))).toNat : ℕ) : ℚ) := by
      exact_mod_cast hle
    push_cast at hq
    linarith
  · have hbn : 1 ≤ bitLength n n := by
      by_contra hc
      have h0 : bitLength n n = 0 := by omega
      rw [h0] at hn2
      simp at hn2
      omega
    have he : (bitLength n n : ℤ) - (bitLength d d : ℤ) - 1
        = ((bitLength n n - 1 : ℕ) : ℤ) - ((bitLength d d : ℕ) : ℤ) := by
      omega
    rw [he, zpow_sub₀ (by norm_num), zpow_natCast, zpow_natCast]
    apply div_le_div₀ (by positivity)
    · exact_mod_cast hn1
    · exact hdq
    · exact_mod_cast hd2.le

theorem roundHalfEven_mul (M D : Nat) (hD : 0 < D) : roundHalfEven (M * D) D = M := by
  unfold roundHalfEven
  simp [Nat.mul_div_cancel _ hD, hD]

theorem F64.round_toRat (neg : Bool) (n d m : Nat) (k : Int) (hd : 0 < d) (hm : m < 2 ^ 53)
    (hk : -1074 ≤ k) (h : (n : ℚ) / d = m * 2 ^ k) :
    (F64.round neg n d).toRat = (if neg then -1 else 1) * ((n : ℚ) / d) := by
  unfold F64.round
  by_cases hn : n = 0
  · simp [hn, F64.toRat]
  · rw [if_neg hn]
    simp only
    have hnpos : 0 < n := Nat.pos_of_ne_zero hn
    have hdq : (0 : ℚ) < d := by exact_mod_cast hd
    have hsk : max (floorLog2 n d - 52) (-1074) ≤ k := by
      have h1 := floorLog2_le n d hnpos hd
      rw [h] at h1
      have h2 : (m : ℚ) * 2 ^ k < 2 ^ (((53 : ℕ) : ℤ) + k) := by
        rw [zpow_add₀ (by norm_num), zpow_natCast]
        have hmq : (m : ℚ) < 2 ^ 53 := by exact_mod_cast hm
        exact mul_lt_mul_of_pos_right hmq (by positivity)
      have h4 : floorLog2 n d < ((53 : ℕ) : ℤ) + k :=
        (zpow_lt_zpow_iff_right₀ (by norm_num : (1 : ℚ) < 2)).mp (lt_of_le_of_lt h1 h2)
      apply max_le <;> omega
    generalize max (floorLog2 n d - 52) (-1074) = s at hsk ⊢
    obtain ⟨j, hj⟩ : ∃ j : ℕ, k - s = j := ⟨(k - s).toNat, by omega⟩
    have hks : (2 : ℚ) ^ k = 2 ^ j * 2 ^ s := by
      rw [← zpow_natCast, ← zpow_add₀ (by norm_num), ← hj]
      congr 1
      omega
    have hs := two_zpow_split s
    have hpos : (0 : ℚ) < 2 ^ (-s).toNat := by positivity
    have hnq : (n : ℚ) = m * 2 ^ k * d := by
      field_simp at h
      linarith
    have hND : n * 2 ^ (-s).toNat = (m * 2 ^ j) * (d * 2 ^ s.toNat) := by
      have hq : ((n * 2 ^ (-s).toNat : ℕ) : ℚ) = (((m * 2 ^ j) * (d * 2 ^ s.toNat) : ℕ) : ℚ) := by
        push_cast
        rw [hnq, hks, hs]
        field_simp
        ring
      exact_mod_cast hq
    rw [hND, roundHalfEven_mul _ _ (by positivity)]
    simp only [F64.toRat]
    rw [h, hks]
    push_cast
    ring

theorem F64.abs_toRat (x : F64) : |x.toRat| = (x.mant : ℚ) * 2 ^ x.exp := by
  have hp : (0 : ℚ) ≤ (x.mant : ℚ) * 2 ^ x.exp := by positivity
  unfold F64.toRat
  cases x.neg
  · simpa using hp
  · simp only [if_true, neg_mul, one_mul, abs_neg]
    exact abs_of_nonneg hp

theorem F64.signed_toRat (x : F64) (e : Int) (he : e ≤ x.exp) :
    ((x.signed e : ℤ) : ℚ) * 2 ^ e = x.toRat := by
  obtain ⟨j, hj⟩ : ∃ j : ℕ, x.exp - e = j := ⟨(x.exp - e).toNat, by omega⟩
  have hx : (2 : ℚ) ^ x.exp = 2 ^ j * 2 ^ e := by
    rw [← zpow_natCast, ← zpow_add₀ (by norm_num), ← hj]
    congr 1
    omega
  unfold F64.signed F64.toRat
  simp only [hj, Int.toNat_ofNat, hx]
  cases x.neg
  · simp only [Bool.false_eq_true, if_false]
    push_cast
    ring
  · simp only [if_true]
    push_cast
    ring

theorem F64.div_toRat (x y : F64) (m : Nat) (k : Int) (hy : y.mant ≠ 0) (hm : m < 2 ^ 53)
    (hk : -1074 ≤ k) (h : |x.toRat / y.toRat| = m * 2 ^ k) :
    (F64.div x y).toRat = x.toRat / y.toRat := by
  have hyq : (y.mant : ℚ) ≠ 0 := by exact_mod_cast hy
  have hratio : ((x.mant * 2 ^ (x.exp - y.exp).toNat : ℕ) : ℚ)
      / ((y.mant * 2 ^ (-(x.exp - y.exp)).toNat : ℕ) : ℚ) = |x.toRat / y.toRat| := by
    rw [abs_div, F64.abs_toRat, F64.abs_toRat]
    have hs := two_zpow_split (x.exp - y.exp)
    rw [zpow_sub₀ (by norm_num)] at hs
    have h1 : (0 : ℚ) < 2 ^ y.exp := by positivity
    have h2 : (0 : ℚ) < 2 ^ (-(x.exp - y.exp)).toNat := by positivity
    push_cast
    field_simp
    field_simp at hs
    linear_combination (-((x.mant : ℚ) * y.mant)) * hs
  unfold F64.div
  simp only
  rw [F64.round_toRat _ _ _ m k (by positivity) hm hk (by rw [hratio, h]), hratio, abs_div,
    F64.abs_toRat, F64.abs_toRat]
  unfold F64.toRat
  cases x.neg <;> cases y.neg <;> simp <;> field_simp

theorem F64.mul_toRat (x y : F64) (m : Nat) (k : Int) (hm : m < 2 ^ 53) (hk : -1074 ≤ k)
    (h : |x.toRat * y.toRat| = m * 2 ^ k) :
    (F64.mul x y).toRat = x.toRat * y.toRat := by
  have hratio : ((x.mant * y.mant * 2 ^ (x.exp + y.exp).toNat : ℕ) : ℚ)
      / ((2 ^ (-(x.exp + y.exp)).toNat : ℕ) : ℚ) = |x.toRat * y.toRat| := by
    rw [abs_mul, F64.abs_toRat, F64.abs_toRat]
    have hs := two_zpow_split (x.exp + y.exp)
    rw [zpow_add₀ (by norm_num)] at hs
    push_cast
    rw [mul_div_assoc, ← hs]
    ring
  unfold F64.mul
  simp only
  rw [F64.round_toRat _ _ _ m k (by positivity) hm hk (by rw [hratio, h]), hratio, abs_mul,
    F64.abs_toRat, F64.abs_toRat]
  unfold F64.toRat
  cases x.neg <;> cases y.neg <;> simp

theorem F64.add_toRat (x y : F64) (m : Nat) (k : Int) (hm : m < 2 ^ 53) (hk : -1074 ≤ k)
    (h : |x.toRat + y.toRat| = m * 2 ^ k) :
    (F64.add x y).toRat = x.toRat + y.toRat := by
  have hsum : ((x.signed (min x.exp y.exp) + y.signed (min x.exp y.exp) : ℤ) : ℚ)
      * 2 ^ (min x.exp y.exp) = x.toRat + y.toRat := by
    push_cast
    rw [add_mul, F64.signed_toRat x _ (min_le_left _ _), F64.signed_toRat y _ (min_le_right _ _)]
  have key : ∀ S : ℤ, (S : ℚ) * 2 ^ (min x.exp y.exp) = x.toRat + y.toRat →
      (F64.round (decide (S < 0)) (S.natAbs * 2 ^ (min x.exp y.exp).toNat)
        (2 ^ (-(min x.exp y.exp)).toNat)).toRat = x.toRat + y.toRat := by
    intro S hS
    have hpos : (0 : ℚ) < 2 ^ (min x.exp y.exp) := by positivity
    have hratio : ((S.natAbs * 2 ^ (min x.exp y.exp).toNat : ℕ) : ℚ)
        / ((2 ^ (-(min x.exp y.exp)).toNat : ℕ) : ℚ) = |x.toRat + y.toRat| := by
      rw [← hS, abs_mul, abs_of_pos hpos]
      have hs := two_zpow_split (min x.exp y.exp)
      push_cast
      rw [mul_div_assoc, ← hs, Nat.cast_natAbs]
      push_cast
      rfl
    rw [F64.round_toRat _ _ _ m k (by positivity) hm hk (by rw [hratio, h]), hratio, ← hS,
      abs_mul, abs_of_pos hpos]
    by_cases hneg : S < 0
    · have hq : (S : ℚ) < 0 := by exact_mod_cast hneg
      simp [hneg, abs_of_neg hq]
    · have hq : (0 : ℚ) ≤ S := by exact_mod_cast (not_lt.mp hneg)
      simp [hneg, abs_of_nonneg hq]
  unfold F64.add
  exact key _ hsum

/-- With a fraction byte `5 * j` the value `whole + fraction / 10` is a multiple
of one half, so the quotient, the sum and the product by `-1.` are all exact. -/
theorem sensorValue_exact (w j : Nat) (hw : w < 256) (hj : j < 256) :
    (F64.add (F64.ofUInt8 w) (F64.div (F64.ofUInt8 (5 * j)) F64.ten)).toRat
      = (w : ℚ) + ((5 * j : ℕ) : ℚ) / 10 ∧
    (F64.mul (F64.add (F64.ofUInt8 w) (F64.div (F64.ofUInt8 (5 * j)) F64.ten))
        F64.minusOne).toRat
      = -((w : ℚ) + ((5 * j : ℕ) : ℚ) / 10) := by
  have hw' : (F64.ofUInt8 w).toRat = w := by simp [F64.ofUInt8, F64.toRat]
  have hf' : (F64.ofUInt8 (5 * j)).toRat = ((5 * j : ℕ) : ℚ) := by
    simp [F64.ofUInt8, F64.toRat]
  have ht : F64.ten.toRat = 10 := by simp [F64.ten, F64.toRat]
  have hm1 : F64.minusOne.toRat = -1 := by simp [F64.minusOne, F64.toRat]
  have hdiv : (F64.div (F64.ofUInt8 (5 * j)) F64.ten).toRat = ((5 * j : ℕ) : ℚ) / 10 := by
    rw [F64.div_toRat _ _ j (-1) (by decide) (by omega) (by decide), hf', ht]
    rw [hf', ht, abs_of_nonneg (by positivity)]
    push_cast
    rw [zpow_neg_one]
    ring
  have hadd : (F64.add (F64.ofUInt8 w) (F64.div (F64.ofUInt8 (5 * j)) F64.ten)).toRat
      = (w : ℚ) + ((5 * j : ℕ) : ℚ) / 10 := by
    rw [F64.add_toRat _ _ (2 * w + j) (-1) (by omega) (by decide), hw', hdiv]
    rw [hw', hdiv, abs_of_nonneg (by positivity)]
    push_cast
    rw [zpow_neg_one]
    ring
  refine ⟨hadd, ?_⟩
  rw [F64.mul_toRat _ _ (2 * w + j) (-1) (by omega) (by decide), hadd, hm1]
  · ring
  · rw [hadd, hm1, mul_neg_one, abs_neg, abs_of_nonneg (by positivity)]
    push_cast
    rw [zpow_neg_one]
    ring

/-- A `float64` is a binary fraction: it equals `a / 10` only when `5` divides `a`. -/
theorem F64.five_dvd_of_toRat_eq (x : F64) (a : ℤ) (h : x.toRat = (a : ℚ) / 10) : (5 : ℤ) ∣ a := by
  have hs := two_zpow_split x.exp
  have hpos : (0 : ℚ) < 2 ^ (-x.exp).toNat := by positivity
  have hq : ((((if x.neg then -1 else 1) * (x.mant : ℤ) * 2 ^ x.exp.toNat * 10 : ℤ)) : ℚ)
      = ((a * 2 ^ (-x.exp).toNat : ℤ) : ℚ) := by
    unfold F64.toRat at h
    rw [hs] at h
    field_simp at h
    push_cast
    cases hx : x.neg <;> simp [hx] at h ⊢ <;> linarith
  have hz : (if x.neg then -1 else 1) * (x.mant : ℤ) * 2 ^ x.exp.toNat * 10
      = a * 2 ^ (-x.exp).toNat := by exact_mod_cast hq
  have h5 : Prime (5 : ℤ) := Int.prime_iff_natAbs_prime.mpr (by norm_num)
  have hdvd : (5 : ℤ) ∣ a * 2 ^ (-x.exp).toNat := ⟨(if x.neg then -1 else 1) * (x.mant : ℤ) * 2 ^ x.exp.toNat * 2, by rw [← hz]; ring⟩
  rcases h5.dvd_or_dvd hdvd with h1 | h1
  · exact h1
  · have h2 := h5.dvd_of_dvd_pow h1
    norm_num at h2

/-! ## float64 arithmetic: the rounding error -/

theorem roundHalfEven_error (N D : Nat) (hD : 0 < D) :
    |(roundHalfEven N D : ℚ) - (N : ℚ) / D| ≤ 1 / 2 := by
  have hDq : (0 : ℚ) < D := by exact_mod_cast hD
  have hN : (N : ℚ) = D * (N / D : ℕ) + (N % D : ℕ) := by exact_mod_cast (Nat.div_add_mod N D).symm
  have hr : ((N % D : ℕ) : ℚ) < D := by exact_mod_cast Nat.mod_lt N hD
  have hr0 : (0 : ℚ) ≤ ((N % D : ℕ) : ℚ) := by positivity
  have key : ∀ R : ℚ, |R * D - N| ≤ D / 2 → |R - N / D| ≤ 1 / 2 := by
    intro R h
    have he : R - N / D = (R * D - N) / D := by
      field_simp
    rw [he, abs_div, abs_of_pos hDq, div_le_iff₀ hDq]
    linarith
  apply key
  unfold roundHalfEven
  simp only
  split_ifs with h1 h2 h3
  · have h1q : (2 : ℚ) * ((N % D : ℕ) : ℚ) < D := by exact_mod_cast h1
    rw [abs_le]
    constructor <;> linarith
  · have h2q : (D : ℚ) < 2 * ((N % D : ℕ) : ℚ) := by exact_mod_cast h2
    rw [abs_le]
    push_cast
    constructor <;> linarith
  · have h1q : (D : ℚ) ≤ 2 * ((N % D : ℕ) : ℚ) := by exact_mod_cast (not_lt.mp h1)
    have h2q : (2 : ℚ) * ((N % D : ℕ) : ℚ) ≤ D := by exact_mod_cast (not_lt.mp h2)
    rw [abs_le]
    constructor <;> linarith
  · have h1q : (D : ℚ) ≤ 2 * ((N % D : ℕ) : ℚ) := by exact_mod_cast (not_lt.mp h1)
    have h2q : (2 : ℚ) * ((N % D : ℕ) : ℚ) ≤ D := by exact_mod_cast (not_lt.mp h2)
    rw [abs_le]
    push_cast
    constructor <;> linarith

/-- Rounding a ratio that is zero or at least `2 ^ (-1022)` changes it by at
most the fraction `2 ^ (-53)` of itself. -/
theorem F64.round_error (neg : Bool) (n d : Nat) (hd : 0 < d)
    (hq : (n : ℚ) / d = 0 ∨ (2 : ℚ) ^ (-1022 : ℤ) ≤ (n : ℚ) / d) :
    |(F64.round neg n d).toRat - (if neg then -1 else 1) * ((n : ℚ) / d)|
      ≤ (n : ℚ) / d * 2 ^ (-53 : ℤ) := by
  have hdq : (0 : ℚ) < d := by exact_mod_cast hd
  unfold F64.round
  by_cases hn : n = 0
  · simp [hn, F64.toRat]
  · rw [if_neg hn]
    simp only
    have hnpos : 0 < n := Nat.pos_of_ne_zero hn
    have hnq : (0 : ℚ) < n := by exact_mod_cast hnpos
    have hqpos : (0 : ℚ) < (n : ℚ) / d := div_pos hnq hdq
    have hq' : (2 : ℚ) ^ (-1022 : ℤ) ≤ (n : ℚ) / d := by
      rcases hq with h | h
      · exact absurd h hqpos.ne'
      · exact h
    have hfl := floorLog2_le n d hnpos hd
    have hulp : (2 : ℚ) ^ (max (floorLog2 n d - 52) (-1074)) / 2 ≤ (n : ℚ) / d * 2 ^ (-53 : ℤ) := by
      rcases le_total (floorLog2 n d - 52) (-1074) with h | h
      · rw [max_eq_right h]
        have he : (2 : ℚ) ^ (-1074 : ℤ) = 2 ^ (-1022 : ℤ) * 2 ^ (-53 : ℤ) * 2 := by
          rw [← zpow_add₀ (by norm_num), ← zpow_add_one₀ (by norm_num)]
          norm_num
        rw [he]
        have hp : (0 : ℚ) < 2 ^ (-53 : ℤ) := by positivity
        nlinarith
      · rw [max_eq_left h]
        have he : (2 : ℚ) ^ (floorLog2 n d - 52)
            = 2 ^ (floorLog2 n d) * 2 ^ (-53 : ℤ) * 2 := by
          rw [← zpow_add₀ (by norm_num), ← zpow_add_one₀ (by norm_num)]
          congr 1
          ring
        rw [he]
        have hp : (0 : ℚ) < 2 ^ (-53 : ℤ) := by positivity
        nlinarith
    generalize max (floorLog2 n d - 52) (-1074) = s at hulp ⊢
    have hs := two_zpow_split s
    have hspos : (0 : ℚ) < 2 ^ s := by positivity
    have hD : 0 < d * 2 ^ s.toNat := by positivity
    have herr := roundHalfEven_error (n * 2 ^ (-s).toNat) (d * 2 ^ s.toNat) hD
    generalize roundHalfEven (n * 2 ^ (-s).toNat) (d * 2 ^ s.toNat) = R at herr ⊢
    have hscale : ((n * 2 ^ (-s).toNat : ℕ) : ℚ) / ((d * 2 ^ s.toNat : ℕ) : ℚ)
        = (n : ℚ) / d / 2 ^ s := by
      rw [hs]
      push_cast
      field_simp
    rw [hscale] at herr
    have hfac : (if neg then -1 else 1) * (R : ℚ) * 2 ^ s - (if neg then -1 else 1) * ((n : ℚ) / d)
        = (if neg then -1 else 1) * (2 ^ s * ((R : ℚ) - (n : ℚ) / d / 2 ^ s)) := by
      cases neg
      · simp only [Bool.false_eq_true, if_false]
        field_simp
        ring
      · simp only [if_true]
        field_simp
        ring
    simp only [F64.toRat]
    rw [hfac, abs_mul, abs_mul, abs_of_pos hspos]
    have hsgn : |(if neg then (-1 : ℚ) else 1)| = 1 := by
      cases neg <;> simp
    rw [hsgn, one_mul]
    calc 2 ^ s * |(R : ℚ) - (n : ℚ) / d / 2 ^ s| ≤ 2 ^ s * (1 / 2) :=
          mul_le_mul_of_nonneg_left herr hspos.le
      _ = 2 ^ s / 2 := by ring
      _ ≤ (n : ℚ) / d * 2 ^ (-53 : ℤ) := hulp

theorem F64.div_error (x y : F64) (hy : y.mant ≠ 0)
    (h : x.toRat / y.toRat = 0 ∨ (2 : ℚ) ^ (-1022 : ℤ) ≤ |x.toRat / y.toRat|) :
    |(F64.div x y).toRat - x.toRat / y.toRat| ≤ |x.toRat / y.toRat| * 2 ^ (-53 : ℤ) := by
  have hyq : (y.mant : ℚ) ≠ 0 := by exact_mod_cast hy
  have hratio : ((x.mant * 2 ^ (x.exp - y.exp).toNat : ℕ) : ℚ)
      / ((y.mant * 2 ^ (-(x.exp - y.exp)).toNat : ℕ) : ℚ) = |x.toRat / y.toRat| := by
    rw [abs_div, F64.abs_toRat, F64.abs_toRat]
    have hs := two_zpow_split (x.exp - y.exp)
    rw [zpow_sub₀ (by norm_num)] at hs
    have h1 : (0 : ℚ) < 2 ^ y.exp := by positivity
    have h2 : (0 : ℚ) < 2 ^ (-(x.exp - y.exp)).toNat := by positivity
    push_cast
    field_simp
    field_simp at hs
    linear_combination (-((x.mant : ℚ) * y.mant)) * hs
  have hsign : x.toRat / y.toRat
      = (if (x.neg != y.neg) then -1 else 1) * |x.toRat / y.toRat| := by
    rw [abs_div, F64.abs_toRat, F64.abs_toRat]
    unfold F64.toRat
    cases x.neg <;> cases y.neg <;> simp <;> field_simp
  have herr := F64.round_error (x.neg != y.neg) (x.mant * 2 ^ (x.exp - y.exp).toNat)
    (y.mant * 2 ^ (-(x.exp - y.exp)).toNat) (by positivity)
    (by
      rw [hratio]
      rcases h with h | h
      · left
        rw [h, abs_zero]
      · exact Or.inr h)
  rw [hratio, ← hsign] at herr
  exact herr

theorem F64.mul_error (x y : F64)
    (h : x.toRat * y.toRat = 0 ∨ (2 : ℚ) ^ (-1022 : ℤ) ≤ |x.toRat * y.toRat|) :
    |(F64.mul x y).toRat - x.toRat * y.toRat| ≤ |x.toRat * y.toRat| * 2 ^ (-53 : ℤ) := by
  have hratio : ((x.mant * y.mant * 2 ^ (x.exp + y.exp).toNat : ℕ) : ℚ)
      / ((2 ^ (-(x.exp + y.exp)).toNat : ℕ) : ℚ) = |x.toRat * y.toRat| := by
    rw [abs_mul, F64.abs_toRat, F64.abs_toRat]
    have hs := two_zpow_split (x.exp + y.exp)
    rw [zpow_add₀ (by norm_num)] at hs
    push_cast
    rw [mul_div_assoc, ← hs]
    ring
  have hsign : x.toRat * y.toRat
      = (if (x.neg != y.neg) then -1 else 1) * |x.toRat * y.toRat| := by
    rw [abs_mul, F64.abs_toRat, F64.abs_toRat]
    unfold F64.toRat
    cases x.neg <;> cases y.neg <;> simp
  have herr := F64.round_error (x.neg != y.neg) (x.mant * y.mant * 2 ^ (x.exp + y.exp).toNat)
    (2 ^ (-(x.exp + y.exp)).toNat) (by positivity)
    (by
      rw [hratio]
      rcases h with h | h
      · left
        rw [h, abs_zero]
      · exact Or.inr h)
  rw [hratio, ← hsign] at herr
  exact herr

theorem F64.add_error (x y : F64)
    (h : x.toRat + y.toRat = 0 ∨ (2 : ℚ) ^ (-1022 : ℤ) ≤ |x.toRat + y.toRat|) :
    |(F64.add x y).toRat - (x.toRat + y.toRat)| ≤ |x.toRat + y.toRat| * 2 ^ (-53 : ℤ) := by
  have hsum : ((x.signed (min x.exp y.exp) + y.signed (min x.exp y.exp) : ℤ) : ℚ)
      * 2 ^ (min x.exp y.exp) = x.toRat + y.toRat := by
    push_cast
    rw [add_mul, F64.signed_toRat x _ (min_le_left _ _), F64.signed_toRat y _ (min_le_right _ _)]
  have key : ∀ S : ℤ, (S : ℚ) * 2 ^ (min x.exp y.exp) = x.toRat + y.toRat →
      |(F64.round (decide (S < 0)) (S.natAbs * 2 ^ (min x.exp y.exp).toNat)
        (2 ^ (-(min x.exp y.exp)).toNat)).toRat - (x.toRat + y.toRat)|
        ≤ |x.toRat + y.toRat| * 2 ^ (-53 : ℤ) := by
    intro S hS
    have hpos : (0 : ℚ) < 2 ^ (min x.exp y.exp) := by positivity
    have hratio : ((S.natAbs * 2 ^ (min x.exp y.exp).toNat : ℕ) : ℚ)
        / ((2 ^ (-(min x.exp y.exp)).toNat : ℕ) : ℚ) = |x.toRat + y.toRat| := by
      rw [← hS, abs_mul, abs_of_pos hpos]
      have hs := two_zpow_split (min x.exp y.exp)
      push_cast
      rw [mul_div_assoc, ← hs, Nat.cast_natAbs]
      push_cast
      rfl
    have hsign : x.toRat + y.toRat
        = (if decide (S < 0) then -1 else 1) * |x.toRat + y.toRat| := by
      rw [← hS, abs_mul, abs_of_pos hpos]
      by_cases hneg : S < 0
      · have hq : (S : ℚ) < 0 := by exact_mod_cast hneg
        simp [hneg, abs_of_neg hq]
      · have hq : (0 : ℚ) ≤ S := by exact_mod_cast (not_lt.mp hneg)
        simp [hneg, abs_of_nonneg hq]
    have herr := F64.round_error (decide (S < 0)) (S.natAbs * 2 ^ (min x.exp y.exp).toNat)
      (2 ^ (-(min x.exp y.exp)).toNat) (by positivity)
      (by
        rw [hratio]
        rcases h with h | h
        · left
          rw [h, abs_zero]
        · exact Or.inr h)
    rw [hratio, ← hsign] at herr
    exact herr
  unfold F64.add
  exact key _ hsum

theorem two_zpow_neg_1022_le : (2 : ℚ) ^ (-1022 : ℤ) ≤ 1 / 1024 := by
  have h : (2 : ℚ) ^ (-1022 : ℤ) ≤ 2 ^ (-10 : ℤ) :=
    zpow_le_zpow_right₀ (by norm_num) (by norm_num)
  have h10 : (2 : ℚ) ^ (-10 : ℤ) = 1 / 1024 := by norm_num
  linarith

/-- The quotient and the sum of `ExtractTemp` and `ExtractHumidity` are each
rounded once, and so is the product by `-1.`: the result is within the fraction
`2 ^ (-51)` of `whole + fraction / 10`. -/
theorem sensorValue_error (w f : Nat) :
    |(F64.add (F64.ofUInt8 w) (F64.div (F64.ofUInt8 f) F64.ten)).toRat
        - ((w : ℚ) + (f : ℚ) / 10)| ≤ ((w : ℚ) + (f : ℚ) / 10) * 2 ^ (-51 : ℤ) ∧
    |(F64.mul (F64.add (F64.ofUInt8 w) (F64.div (F64.ofUInt8 f) F64.ten))
        F64.minusOne).toRat - -((w : ℚ) + (f : ℚ) / 10)|
      ≤ ((w : ℚ) + (f : ℚ) / 10) * 2 ^ (-51 : ℤ) := by
  have hu : (2 : ℚ) ^ (-53 : ℤ) = 1 / 9007199254740992 := by norm_num
  have hu51 : (2 : ℚ) ^ (-51 : ℤ) = 1 / 2251799813685248 := by norm_num
  have hsmall := two_zpow_neg_1022_le
  have hw' : (F64.ofUInt8 w).toRat = w := by simp [F64.ofUInt8, F64.toRat]
  have hf' : (F64.ofUInt8 f).toRat = (f : ℚ) := by simp [F64.ofUInt8, F64.toRat]
  have ht : F64.ten.toRat = 10 := by simp [F64.ten, F64.toRat]
  have hm1 : F64.minusOne.toRat = -1 := by simp [F64.minusOne, F64.toRat]
  have hw0 : (w : ℚ) = 0 ∨ (1 : ℚ) ≤ w := by
    rcases Nat.eq_zero_or_pos w with h | h
    · left
      exact_mod_cast h
    · right
      exact_mod_cast h
  have hc : (f : ℚ) / 10 = 0 ∨ 1 / 10 ≤ (f : ℚ) / 10 := by
    rcases Nat.eq_zero_or_pos f with h | h
    · left
      simp [h]
    · right
      have h1 : (1 : ℚ) ≤ f := by exact_mod_cast h
      linarith
  have hc0 : (0 : ℚ) ≤ (f : ℚ) / 10 := by positivity
  have hwn : (0 : ℚ) ≤ w := by positivity
  -- the quotient
  have hD := F64.div_error (F64.ofUInt8 f) F64.ten (by decide) (by
    rw [hf', ht, abs_of_nonneg hc0]
    rcases hc with h | h
    · exact Or.inl h
    · right
      exact le_trans hsmall (by linarith))
  rw [hf', ht, abs_of_nonneg hc0, hu, abs_le] at hD
  obtain ⟨hD1, hD2⟩ := hD
  -- the sum
  have hS0 : (0 : ℚ) ≤ (w : ℚ) + (F64.div (F64.ofUInt8 f) F64.ten).toRat := by linarith
  have hS := F64.add_error (F64.ofUInt8 w) (F64.div (F64.ofUInt8 f) F64.ten) (by
    rw [hw', abs_of_nonneg hS0]
    rcases hw0 with h | h
    · rcases hc with h' | h'
      · left
        linarith
      · right
        exact le_trans hsmall (by linarith)
    · right
      exact le_trans hsmall (by linarith))
  rw [hw', abs_of_nonneg hS0, hu, abs_le] at hS
  obtain ⟨hS1, hS2⟩ := hS
  -- the product
  have hV0 : (0 : ℚ) ≤ (F64.add (F64.ofUInt8 w) (F64.div (F64.ofUInt8 f) F64.ten)).toRat := by
    linarith
  have hP := F64.mul_error (F64.add (F64.ofUInt8 w) (F64.div (F64.ofUInt8 f) F64.ten))
    F64.minusOne (by
    rw [hm1, mul_neg_one, abs_neg, abs_of_nonneg hV0]
    rcases hw0 with h | h
    · rcases hc with h' | h'
      · left
        linarith
      · right
        exact le_trans hsmall (by linarith)
    · right
      exact le_trans hsmall (by linarith))
  rw [hm1, mul_neg_one, abs_neg, abs_of_nonneg hV0, hu, abs_le] at hP
  obtain ⟨hP1, hP2⟩ := hP
  rw [hu51]
  constructor
  · rw [abs_le]
    constructor <;> linarith
  · rw [abs_le]
    constructor <;> linarith

theorem signedValue_exact_iff (s w f : Nat) (hw : w < 256) (hf : f < 256) :
    (if s ≠ 0 then
        F64.mul (F64.add (F64.ofUInt8 w) (F64.div (F64.ofUInt8 f) F64.ten)) F64.minusOne
      else F64.add (F64.ofUInt8 w) (F64.div (F64.ofUInt8 f) F64.ten)).toRat
      = (if s ≠ 0 then -1 else 1) * ((w : ℚ) + (f : ℚ) / 10) ↔ 5 ∣ f := by
  constructor
  · intro h
    have hq : (if s ≠ 0 then -1 else 1) * ((w : ℚ) + (f : ℚ) / 10)
        = (((if s ≠ 0 then -1 else 1) * (10 * (w : ℤ) + (f : ℤ)) : ℤ) : ℚ) / 10 := by
      by_cases hs : s ≠ 0
      · rw [if_pos hs, if_pos hs]
        push_cast
        ring
      · rw [if_neg hs, if_neg hs]
        push_cast
        ring
    rw [hq] at h
    have h5 := F64.five_dvd_of_toRat_eq _ _ h
    by_cases hs : s ≠ 0
    · rw [if_pos hs] at h5
      omega
    · rw [if_neg hs] at h5
      omega
  · rintro ⟨j, rfl⟩
    obtain ⟨h1, h2⟩ := sensorValue_exact w j hw (by omega)
    by_cases hs : s ≠ 0
    · rw [if_pos hs, if_pos hs, h2]
      push_cast
      ring
    · rw [if_neg hs, if_neg hs, h1]
      push_cast
      ring

theorem signedValue_error (s w f : Nat) :
    |(if s ≠ 0 then
        F64.mul (F64.add (F64.ofUInt8 w) (F64.div (F64.ofUInt8 f) F64.ten)) F64.minusOne
      else F64.add (F64.ofUInt8 w) (F64.div (F64.ofUInt8 f) F64.ten)).toRat
      - (if s ≠ 0 then -1 else 1) * ((w : ℚ) + (f : ℚ) / 10)|
      ≤ ((w : ℚ) + (f : ℚ) / 10) * 2 ^ (-51 : ℤ) := by
  obtain ⟨h1, h2⟩ := sensorValue_error w f
  by_cases hs : s ≠ 0
  · rw [if_pos hs, if_pos hs, neg_one_mul]
    exact h2
  · rw [if_neg hs, if_neg hs, one_mul]
    exact h1

theorem tempBleData_SensorValue (a : Advertisement) (now : Time) (hTD : HumiTempData) :
    (tempBleData a now hTD).SensorValue =
      if hTD.TemperatureSign ≠ 0 then
        F64.mul (F64.add (F64.ofUInt8 hTD.TemperatureWhole)
          (F64.div (F64.ofUInt8 hTD.TemperatureFraction) F64.ten)) F64.minusOne
      else F64.add (F64.ofUInt8 hTD.TemperatureWhole)
          (F64.div (F64.ofUInt8 hTD.TemperatureFraction) F64.ten) := by
  unfold tempBleData
  split <;> simp [*]

theorem humidityBleData_SensorValue (a : Advertisement) (now : Time) (hTD : HumiTempData) :
    (humidityBleData a now hTD).SensorValue =
      if hTD.HumiditySign ≠ 0 then
        F64.mul (F64.add (F64.ofUInt8 hTD.HumidityWhole)
          (F64.div (F64.ofUInt8 hTD.HumidityFraction) F64.ten)) F64.minusOne
      else F64.add (F64.ofUInt8 hTD.HumidityWhole)
          (F64.div (F64.ofUInt8 hTD.HumidityFraction) F64.ten) := by
  unfold humidityBleData
  split <;> simp [*]

/-- C2, refuted as stated: for the record with sign 0, whole 0 and fraction 1
the `SensorValue` of `ExtractTemp` is the `float64`
`7205759403792794 * 2 ^ (-56)`, which is not the rational `0 + 1/10`. -/
theorem sensor_value_of_one_tenth_is_inexact :
    (tempBleData shortAdvertisement ⟨0⟩ tenthRecord).SensorValue
      = ⟨false, 7205759403792794, -56⟩ ∧
    (tempBleData shortAdvertisement ⟨0⟩ tenthRecord).SensorValue.toRat
      ≠ (if tenthRecord.TemperatureSign ≠ 0 then -1 else 1)
          * ((tenthRecord.TemperatureWhole : ℚ) + (tenthRecord.TemperatureFraction : ℚ) / 10) := by
  refine ⟨by decide!, ?_⟩
  intro h
  rw [tempBleData_SensorValue] at h
  have h5 := (signedValue_exact_iff _ _ _ (by decide) (by decide)).mp h
  revert h5
  decide

/-- C2, amended. For every decoded record (whole and fraction bytes 0..255) the
`float64` `SensorValue` built by `ExtractTemp` differs from
`(TemperatureSign != 0 ? -1 : 1) * (TemperatureWhole + TemperatureFraction/10)`
by at most the fraction `2 ^ (-51)` of `TemperatureWhole + TemperatureFraction/10`,
and equals it as an exact rational number if and only if the fraction byte is a
multiple of 5; likewise for `ExtractHumidity` with the humidity fields. -/
theorem sensor_value_is_rounded_decimal (a : Advertisement) (now : Time)
    (hTD : HumiTempData) (htw : hTD.TemperatureWhole < 256) (htf : hTD.TemperatureFraction < 256)
    (hhw : hTD.HumidityWhole < 256) (hhf : hTD.HumidityFraction < 256) :
    (|(tempBleData a now hTD).SensorValue.toRat
        - (if hTD.TemperatureSign ≠ 0 then -1 else 1)
            * ((hTD.TemperatureWhole : ℚ) + (hTD.TemperatureFraction : ℚ) / 10)|
        ≤ ((hTD.TemperatureWhole : ℚ) + (hTD.TemperatureFraction : ℚ) / 10) * 2 ^ (-51 : ℤ) ∧
      ((tempBleData a now hTD).SensorValue.toRat
        = (if hTD.TemperatureSign ≠ 0 then -1 else 1)
            * ((hTD.TemperatureWhole : ℚ) + (hTD.TemperatureFraction : ℚ) / 10)
        ↔ 5 ∣ hTD.TemperatureFraction)) ∧
    (|(humidityBleData a now hTD).SensorValue.toRat
        - (if hTD.HumiditySign ≠ 0 then -1 else 1)
            * ((hTD.HumidityWhole : ℚ) + (hTD.HumidityFraction : ℚ) / 10)|
        ≤ ((hTD.HumidityWhole : ℚ) + (hTD.HumidityFraction : ℚ) / 10) * 2 ^ (-51 : ℤ) ∧
      ((humidityBleData a now hTD).SensorValue.toRat
        = (if hTD.HumiditySign ≠ 0 then -1 else 1)
            * ((hTD.HumidityWhole : ℚ) + (hTD.HumidityFraction : ℚ) / 10)
        ↔ 5 ∣ hTD.HumidityFraction)) := by
  rw [tempBleData_SensorValue, humidityBleData_SensorValue]
  exact ⟨⟨signedValue_error _ _ _, signedValue_exact_iff _ _ _ htw htf⟩,
    ⟨signedValue_error _ _ _, signedValue_exact_iff _ _ _ hhw hhf⟩⟩

/-- C2, amended, at the record with temperature sign 1, whole 23, fraction 5
and humidity sign 0, whole 23, fraction 5: the values are -23.5 and 23.5. -/
theorem sensor_value_is_rounded_decimal_witness :
    (tempBleData shortAdvertisement ⟨0⟩ halfRecord).SensorValue.toRat = -(47 / 2) ∧
    (humidityBleData shortAdvertisement ⟨0⟩ halfRecord).SensorValue.toRat = 47 / 2 := by
  have h := sensor_value_is_rounded_decimal shortAdvertisement ⟨0⟩ halfRecord
    (by decide) (by decide) (by decide) (by decide)
  refine ⟨(h.1.2.mpr (by decide)).trans ?_, (h.2.2.mpr (by decide)).trans ?_⟩
  · simp [halfRecord]
    norm_num
  · simp [halfRecord]
    norm_num

end BleClient
